import Mathlib

/-!
Verification of the Split Bill Buddy core (src/split_bill_bot.py).

Python floats are modelled as exact rationals (ℚ); `float(text)` / `int(text)`
parsing is modelled as an `Option` input (none = unparseable text).  Message
transport (message ids, deletion) is out of the embedded state, per the spec's
scope.  Python's `round` rounds half to even; `pyRound` reproduces that.
-/

namespace SplitBill

/-- Python `round` on a rational: nearest integer, ties to even. -/
def pyRound (q : ℚ) : ℤ :=
  let f : ℤ := ⌊q⌋
  let r : ℚ := q - f
  if r < 1/2 then f
  else if 1/2 < r then f + 1
  else if f % 2 = 0 then f else f + 1

set_option linter.unusedVariables false in
/-- The while loop of `allocate_cents`: add one cent to each of the first
`diff` entries (in order), stopping when `diff` cents have been handed out
or the list is exhausted. -/
def addOneToFirst : ℤ → List ℤ → List ℤ
  | d, [] => []
  | d, c :: cs => if 0 < d then (c + 1) :: addOneToFirst (d - 1) cs else c :: cs

/-- `allocate_cents(shares, grand_total)` (src/split_bill_bot.py:79-92):
floor each share to integer cents, compute
`diff = round(grand_total*100) - sum(cents)`, add one cent to the first
`diff` entries, divide back to 2-decimal amounts. -/
def allocate_cents (shares : List ℚ) (grand_total : ℚ) : List ℚ :=
  let cents : List ℤ := shares.map (fun x => ⌊x * 100⌋)
  let diff : ℤ := pyRound (grand_total * 100) - cents.sum
  (addOneToFirst diff cents).map (fun c : ℤ => (c : ℚ) / 100)

/-- `close_enough(a, b, tol)` (src/split_bill_bot.py:76-77). -/
def close_enough (a b tol : ℚ) : Bool :=
  decide (|a - b| ≤ tol)

/-- The per-chat session record (the dict created by `get_session`),
without the transport-layer bookkeeping (`messages`, `finalized_msg_id`). -/
structure Session where
  currency : String
  total : ℚ
  gst : ℚ
  service : ℚ
  num_people : ℤ
  people : List (String × ℚ)
  deriving Repr, DecidableEq

/-- The fresh session built by `get_session` (src/split_bill_bot.py:33-45). -/
def freshSession : Session :=
  { currency := "SGD", total := 0, gst := 0, service := 0,
    num_people := 0, people := [] }

/-- Lookup in an insertion-ordered dict (Python `dict.get`). -/
def dictGet (ps : List (String × ℚ)) (n : String) : Option ℚ :=
  match ps with
  | [] => none
  | (k, v) :: rest => if k = n then some v else dictGet rest n

/-- Assignment `d[n] = v` on an insertion-ordered dict: an existing key keeps
its position, a new key is appended. -/
def dictInsert (ps : List (String × ℚ)) (n : String) (v : ℚ) :
    List (String × ℚ) :=
  match ps with
  | [] => [(n, v)]
  | (k, a) :: rest =>
      if k = n then (k, v) :: rest else (k, a) :: dictInsert rest n v

/-- Conversation states (src/split_bill_bot.py:19). -/
def MENU : ℕ := 0
def CURRENCY : ℕ := 1
def TOTAL : ℕ := 2
def GST : ℕ := 3
def SERVICE : ℕ := 4
def NUM_PEOPLE : ℕ := 5

/-- `set_total` (src/split_bill_bot.py:175-187).  The Python handler assigns
`session["total"] = float(text)` first and only then raises on a negative
value, so a parseable negative input is stored before the error message is
sent.  Returns the next conversation state. -/
def set_total (s : Session) (input : Option ℚ) : Session × ℕ :=
  match input with
  | none => (s, TOTAL)
  | some v =>
      let s' := { s with total := v }
      if v < 0 then (s', TOTAL) else (s', GST)

/-- `set_gst` (src/split_bill_bot.py:189-201); same assign-then-validate
shape as `set_total`. -/
def set_gst (s : Session) (input : Option ℚ) : Session × ℕ :=
  match input with
  | none => (s, GST)
  | some v =>
      let s' := { s with gst := v }
      if v < 0 then (s', GST) else (s', SERVICE)

/-- `set_service` (src/split_bill_bot.py:203-215); same assign-then-validate
shape as `set_total`. -/
def set_service (s : Session) (input : Option ℚ) : Session × ℕ :=
  match input with
  | none => (s, SERVICE)
  | some v =>
      let s' := { s with service := v }
      if v < 0 then (s', SERVICE) else (s', NUM_PEOPLE)

/-- Result of `set_num_people`: either stay in `NUM_PEOPLE` or end setup. -/
inductive NumPeopleOutcome where
  | stay
  | done
  deriving Repr, DecidableEq

/-- `set_num_people` (src/split_bill_bot.py:217-247).  Here the code
validates `n <= 0` before assigning `session["num_people"]`, so a failing
input leaves the session unchanged. -/
def set_num_people (s : Session) (input : Option ℤ) :
    Session × NumPeopleOutcome :=
  match input with
  | none => (s, .stay)
  | some n =>
      if n ≤ 0 then (s, .stay)
      else ({ s with num_people := n }, .done)

/-- `/addamount` core (src/split_bill_bot.py:261-273): additive upsert.
`amount = none` models an unparseable number.  The `Bool` is success. -/
def addamount (s : Session) (name : String) (amount : Option ℚ) :
    Session × Bool :=
  match amount with
  | none => (s, false)
  | some a =>
      if a < 0 then (s, false)
      else
        let prev := (dictGet s.people name).getD 0
        ({ s with people := dictInsert s.people name (prev + a) }, true)

/-- `/editamount` core (src/split_bill_bot.py:285-299): overwrite; fails when
the name is absent (amount is validated first, as in the source). -/
def editamount (s : Session) (name : String) (amount : Option ℚ) :
    Session × Bool :=
  match amount with
  | none => (s, false)
  | some a =>
      if a < 0 then (s, false)
      else if (dictGet s.people name).isNone then (s, false)
      else ({ s with people := dictInsert s.people name a }, true)

/-- `/remove` core (src/split_bill_bot.py:301-316). -/
def remove_person (s : Session) (name : String) : Session × Bool :=
  if (dictGet s.people name).isSome then
    ({ s with people := s.people.filter (fun p => ¬ p.1 = name) }, true)
  else (s, false)

/-- `/settotal` core (src/split_bill_bot.py:334-350): validated before
assignment. -/
def settotal (s : Session) (amount : Option ℚ) : Session × Bool :=
  match amount with
  | none => (s, false)
  | some a => if a < 0 then (s, false) else ({ s with total := a }, true)

/-- Sum of the custom subtotals, `sum(a for _, a in people_items)`. -/
def sumPeople (s : Session) : ℚ :=
  (s.people.map Prod.snd).sum

/-- Possible outcomes of `/calculate` (src/split_bill_bot.py:378-465). -/
inductive CalcResult where
  /-- no entries and `num_people <= 0`: refuse -/
  | noPeopleError
  /-- equal-split breakdown: gst amount, service amount, grand total,
  single per-person value -/
  | equalSplit (gst_amt svc_amt grand per : ℚ)
  /-- itemized sum does not match the declared total: mismatch flow with
  `difference = total - sum` -/
  | mismatch (difference : ℚ)
  /-- itemized breakdown: per-person amounts in entry insertion order -/
  | itemized (breakdown : List (String × ℚ))
  deriving Repr, DecidableEq

/-- `/calculate` (src/split_bill_bot.py:378-465) on a live session.  Returns
the outcome and the session as it stands afterwards (the source mutates only
the transport bookkeeping, which is outside the embedded state). -/
def calculate (s : Session) : CalcResult × Session :=
  let total_before := s.total
  let gst_pct := s.gst
  let svc_pct := s.service
  if s.people.isEmpty then
    if s.num_people ≤ 0 then (.noPeopleError, s)
    else
      let gst_amt := total_before * (gst_pct / 100)
      let svc_amt := total_before * (svc_pct / 100)
      let grand := total_before + gst_amt + svc_amt
      let per := grand / (s.num_people : ℚ)
      (.equalSplit gst_amt svc_amt grand per, s)
  else
    let sum_custom := sumPeople s
    if ¬ close_enough sum_custom total_before (1/100) then
      (.mismatch (total_before - sum_custom), s)
    else
      let gst_amt := total_before * (gst_pct / 100)
      let svc_amt := total_before * (svc_pct / 100)
      let grand := total_before + gst_amt + svc_amt
      let raw := s.people.map (fun p =>
        p.2 + (if 0 < total_before
               then (p.2 / total_before) * (gst_amt + svc_amt) else 0))
      let final_shares := allocate_cents raw grand
      (.itemized (List.zip (s.people.map Prod.fst) final_shares), s)

/-- The `SCALE_FIX` branch of `mismatch_fix_cb`
(src/split_bill_bot.py:478-485): refuse when the entry sum is `<= 0`,
otherwise rescale every entry by `total / sum`.  The `Bool` is success. -/
def scale_fix (s : Session) : Session × Bool :=
  let sum_custom := sumPeople s
  if sum_custom ≤ 0 then (s, false)
  else
    let factor := s.total / sum_custom
    ({ s with people := s.people.map (fun p => (p.1, p.2 * factor)) }, true)

/-- The `TOTAL_TO_SUM` branch of `mismatch_fix_cb`
(src/split_bill_bot.py:490-492): adopt the entry sum as the total. -/
def total_to_sum (s : Session) : Session :=
  { s with total := sumPeople s }

/-- The remainder the allocator distributes:
`round(grand_total*100) - sum(floored cents)`. -/
def allocRemainder (shares : List ℚ) (grand_total : ℚ) : ℤ :=
  pyRound (grand_total * 100) - (shares.map (fun x => ⌊x * 100⌋)).sum

/-- Concrete session: declared total 100 against a single entry of 50. -/
def mismatchSession : Session :=
  { freshSession with total := 100, people := [("A", 50)] }

/-- The spec's worked itemized example: total 100, GST 9%, service 10%,
entries Alice 60 and Bob 40. -/
def itemSession : Session :=
  { freshSession with
    total := 100
    gst := 9
    service := 10
    people := [("Alice", 60), ("Bob", 40)] }

/-- Concrete session for scaling: total 100 against entries summing to 90. -/
def scaleSession : Session :=
  { freshSession with total := 100, people := [("A", 60), ("B", 30)] }

/-- The spec's mismatch example: total 100, entries summing to 90. -/
def adoptSession : Session :=
  { freshSession with total := 100, people := [("A", 90)] }

/-- Concrete session holding Alice with subtotal 10. -/
def aliceSession : Session :=
  { freshSession with people := [("Alice", 10)] }

/-- Concrete session holding Alice with subtotal 15. -/
def aliceSession15 : Session :=
  { freshSession with people := [("Alice", 15)] }

/-- The spec's equal-split example: total 50, GST 0, service 10%, 4 people. -/
def eqSession : Session :=
  { freshSession with total := 50, service := 10, num_people := 4 }

/-! ## Helper lemmas -/

theorem pyRound_intCast (c : ℤ) : pyRound (c : ℚ) = c := by
  norm_num [pyRound]

theorem addOneToFirst_length (d : ℤ) (cs : List ℤ) :
    (addOneToFirst d cs).length = cs.length := by
  induction cs generalizing d with
  | nil => rfl
  | cons c cs ih =>
      by_cases hd : 0 < d <;> simp [addOneToFirst, hd, ih]

theorem addOneToFirst_sum (d : ℤ) (cs : List ℤ) :
    (addOneToFirst d cs).sum = cs.sum + min (max d 0) (cs.length : ℤ) := by
  induction cs generalizing d with
  | nil => simp [addOneToFirst]
  | cons c cs ih =>
      by_cases hd : 0 < d
      · simp only [addOneToFirst, if_pos hd, List.sum_cons, ih, List.length_cons]
        push_cast
        omega
      · simp only [addOneToFirst, if_neg hd, List.sum_cons, List.length_cons]
        push_cast
        omega

theorem addOneToFirst_getD (d : ℤ) (cs : List ℤ) (i : ℕ) (h : i < cs.length) :
    (addOneToFirst d cs).getD i 0 =
      cs.getD i 0 + (if (i : ℤ) < d then 1 else 0) := by
  induction cs generalizing d i with
  | nil => simp at h
  | cons c cs ih =>
      cases i with
      | zero =>
          by_cases hd : 0 < d
          · simp [addOneToFirst, hd]
          · simp [addOneToFirst, hd]
      | succ i =>
          have hi : i < cs.length := by simpa using h
          by_cases hd : 0 < d
          · simp only [addOneToFirst, if_pos hd, List.getD_cons_succ, ih (d - 1) i hi]
            have hiff : ((i : ℤ) < d - 1) ↔ (((i + 1 : ℕ) : ℤ) < d) := by
              push_cast; omega
            simp only [hiff]
          · simp only [addOneToFirst, if_neg hd, List.getD_cons_succ]
            have hlt : ¬ (((i + 1 : ℕ) : ℤ) < d) := by push_cast; omega
            rw [if_neg hlt, add_zero]

theorem centsSum_map_div (l : List ℤ) :
    ((l.map (fun c : ℤ => (c : ℚ) / 100)).map (fun q => pyRound (q * 100))).sum
      = l.sum := by
  induction l with
  | nil => rfl
  | cons c l ih =>
      simp only [List.map_cons, List.sum_cons, ih]
      rw [div_mul_cancel₀ _ (by norm_num : (100 : ℚ) ≠ 0), pyRound_intCast]

theorem dictGet_dictInsert (ps : List (String × ℚ)) (n : String) (v : ℚ) :
    dictGet (dictInsert ps n v) n = some v := by
  induction ps with
  | nil => simp [dictInsert, dictGet]
  | cons p ps ih =>
      obtain ⟨k, a⟩ := p
      by_cases h : k = n
      · simp [dictInsert, dictGet, h]
      · simp [dictInsert, dictGet, h, ih]

theorem sum_map_snd_mul (l : List (String × ℚ)) (f : ℚ) :
    (l.map (fun p => p.2 * f)).sum = (l.map Prod.snd).sum * f := by
  induction l with
  | nil => simp
  | cons p l ih => simp [ih, add_mul]

/-- Itemized branch of `calculate` when the declared total and the entry sum
agree within tolerance: the allocator output is returned and the session is
untouched. -/
theorem calculate_balanced (s : Session) (h : s.people.isEmpty = false)
    (hb : |sumPeople s - s.total| ≤ 1/100) :
    calculate s =
      (CalcResult.itemized
        (List.zip (s.people.map Prod.fst)
          (allocate_cents
            (s.people.map (fun p =>
              p.2 + (if 0 < s.total
                     then (p.2 / s.total) *
                        (s.total * (s.gst / 100) + s.total * (s.service / 100))
                     else 0)))
            (s.total + s.total * (s.gst / 100) + s.total * (s.service / 100)))),
       s) := by
  have hce : close_enough (sumPeople s) s.total (1/100) = true := by
    simpa [close_enough] using hb
  rw [one_div] at hce
  simp [calculate, h, hce]

/-- Itemized branch of `calculate` when the declared total and the entry sum
disagree beyond tolerance: the mismatch flow is triggered with
`difference = total - sum` and the session is untouched. -/
theorem calculate_mismatch (s : Session) (h : s.people.isEmpty = false)
    (hb : ¬ |sumPeople s - s.total| ≤ 1/100) :
    calculate s = (CalcResult.mismatch (s.total - sumPeople s), s) := by
  have hce : close_enough (sumPeople s) s.total (1/100) = false := by
    simpa [close_enough] using hb
  rw [one_div] at hce
  simp [calculate, h, hce]

/-! ## Claims -/

/-- Claim C1 as stated is false: shares `[1]` (non-empty, non-negative) and
grand total `0` (non-negative) make `allocate_cents` return `[1]`, whose
cent sum is `100`, not `round(0*100) = 0` — the negative remainder is never
subtracted. -/
theorem claim1_counterexample :
    (([(1 : ℚ)] ≠ []) ∧ (∀ x ∈ [(1 : ℚ)], 0 ≤ x) ∧ ((0 : ℚ) ≤ 0)) ∧
    ((allocate_cents [(1 : ℚ)] 0).map (fun q => pyRound (q * 100))).sum
      ≠ pyRound ((0 : ℚ) * 100) := by
  refine ⟨⟨by simp, by norm_num, le_refl 0⟩, ?_⟩
  norm_num [allocate_cents, pyRound, addOneToFirst]

/-- Claim C1, amended: whenever the remainder
`round(grand_total*100) - sum(floored cents)` lies between `0` and the number
of shares, the allocator's output sums, in integer cents, exactly to
`round(grand_total*100)`. -/
theorem claim1_allocation_exact (shares : List ℚ) (grand_total : ℚ)
    (h0 : 0 ≤ allocRemainder shares grand_total)
    (h1 : allocRemainder shares grand_total ≤ (shares.length : ℤ)) :
    ((allocate_cents shares grand_total).map (fun q => pyRound (q * 100))).sum
      = pyRound (grand_total * 100) := by
  simp only [allocate_cents]
  rw [centsSum_map_div, addOneToFirst_sum]
  simp only [allocRemainder] at h0 h1
  simp only [List.length_map]
  omega

/-- Witness for C1 (amended): three equal thirds of 1 have remainder 1,
within bounds, and the allocation sums to 100 cents. -/
theorem claim1_witness :
    (0 ≤ allocRemainder [(1 : ℚ)/3, 1/3, 1/3] 1 ∧
      allocRemainder [(1 : ℚ)/3, 1/3, 1/3] 1 ≤ 3) ∧
    ((allocate_cents [(1 : ℚ)/3, 1/3, 1/3] 1).map
        (fun q => pyRound (q * 100))).sum = pyRound ((1 : ℚ) * 100) :=
  ⟨⟨by norm_num [allocRemainder, pyRound], by norm_num [allocRemainder, pyRound]⟩,
    claim1_allocation_exact [(1 : ℚ)/3, 1/3, 1/3] 1
      (by norm_num [allocRemainder, pyRound])
      (by norm_num [allocRemainder, pyRound])⟩

/-- Claim C2: the allocator preserves length; entry `i` of the output is the
floored cents of share `i` plus one extra cent exactly when
`i < remainder` (so the first `remainder` entries, in input order, each get
one extra cent and nobody gets more than one); identical inputs give
identical outputs. -/
theorem claim2_allocator_per_index (shares : List ℚ) (grand_total : ℚ) :
    (allocate_cents shares grand_total).length = shares.length ∧
    (∀ i, i < shares.length →
      (allocate_cents shares grand_total).getD i 0 =
        ((⌊shares.getD i 0 * 100⌋
          + (if (i : ℤ) < allocRemainder shares grand_total
             then 1 else 0) : ℤ) : ℚ) / 100) ∧
    (∀ shares2 grand2, shares = shares2 → grand_total = grand2 →
      allocate_cents shares grand_total = allocate_cents shares2 grand2) := by
  refine ⟨?_, ?_, ?_⟩
  · simp only [allocate_cents]
    rw [List.length_map, addOneToFirst_length, List.length_map]
  · intro i hi
    simp only [allocate_cents]
    have hlen : i <
        ((addOneToFirst
            (pyRound (grand_total * 100) -
              (shares.map (fun x => ⌊x * 100⌋)).sum)
            (shares.map (fun x => ⌊x * 100⌋))).map
          (fun c : ℤ => (c : ℚ) / 100)).length := by
      rw [List.length_map, addOneToFirst_length, List.length_map]
      exact hi
    rw [List.getD_eq_getElem _ _ hlen, List.getElem_map]
    have hlen2 : i < (addOneToFirst
        (pyRound (grand_total * 100) - (shares.map (fun x => ⌊x * 100⌋)).sum)
        (shares.map (fun x => ⌊x * 100⌋))).length := by
      rw [addOneToFirst_length, List.length_map]; exact hi
    rw [← List.getD_eq_getElem _ 0 hlen2]
    rw [addOneToFirst_getD _ _ _ (by rw [List.length_map]; exact hi)]
    have hcents : (shares.map (fun x => ⌊x * 100⌋)).getD i 0
        = ⌊shares.getD i 0 * 100⌋ := by
      rw [List.getD_eq_getElem _ _ (by rw [List.length_map]; exact hi),
        List.getElem_map, List.getD_eq_getElem _ _ hi]
    rw [hcents]
    simp only [allocRemainder]
  · intro shares2 grand2 hs hg
    rw [hs, hg]

/-- Witness for C2 at shares `[1/3, 1/3, 1/3]`, grand total `1`: the first
entry (remainder is 1) gets the extra cent, `0.34`. -/
theorem claim2_witness :
    (allocate_cents [(1 : ℚ)/3, 1/3, 1/3] 1).getD 0 0 = (34 : ℚ) / 100 := by
  have h := (claim2_allocator_per_index [(1 : ℚ)/3, 1/3, 1/3] 1).2.1 0
    (by norm_num)
  rw [h]
  norm_num [allocRemainder, pyRound]

/-- Claim C3 is right about the code's intent but the code violates it: the
`set_total`, `set_gst` and `set_service` handlers assign the parsed value to
the session before validating it, so the parseable-but-negative input `-5`
is stored (the fresh session had `0`) even though the handler reports
failure and stays in the same conversation state. -/
theorem claim3_set_total_mutates_on_failure :
    freshSession.total = 0 ∧
    (set_total freshSession (some (-5))).1.total = -5 ∧
    (set_total freshSession (some (-5))).2 = TOTAL ∧
    (set_gst freshSession (some (-5))).1.gst = -5 ∧
    (set_gst freshSession (some (-5))).2 = GST ∧
    (set_service freshSession (some (-5))).1.service = -5 ∧
    (set_service freshSession (some (-5))).2 = SERVICE := by
  decide

/-- Claim C4: with at least one entry, finalization proceeds to an itemized
breakdown exactly when `|declaredTotal - sum(entries)| ≤ 0.01`; otherwise it
is refused and the mismatch flow reports `difference = total - sum`. -/
theorem claim4_balance_tolerance (s : Session) (h : s.people ≠ []) :
    if |s.total - sumPeople s| ≤ 1/100
    then ∃ b, (calculate s).1 = CalcResult.itemized b
    else (calculate s).1 = CalcResult.mismatch (s.total - sumPeople s) := by
  have h' : s.people.isEmpty = false := by
    simpa [List.isEmpty_iff] using h
  by_cases hb : |s.total - sumPeople s| ≤ 1/100
  · rw [if_pos hb]
    exact ⟨_, by rw [calculate_balanced s h' (by rwa [abs_sub_comm])]⟩
  · rw [if_neg hb]
    rw [calculate_mismatch s h' (by rwa [abs_sub_comm])]

/-- Witness for C4: declared total 100 against a single entry of 50 is
refused with difference 50. -/
theorem claim4_witness :
    (calculate mismatchSession).1 = CalcResult.mismatch 50 := by
  have hP : ¬ (|mismatchSession.total - sumPeople mismatchSession| ≤ 1/100) := by
    norm_num [mismatchSession, freshSession, sumPeople]
  have h := claim4_balance_tolerance mismatchSession (by simp [mismatchSession, freshSession])
  rw [if_neg hP] at h
  rw [h]
  norm_num [mismatchSession, freshSession, sumPeople]

/-- Claim C5: on a balanced itemized session, finalization allocates, in
entry insertion order, the raw shares
`sub + (sub/total)*(gstAmount+serviceAmount)` (just `sub` when the total is
not positive) against `grand = total + gstAmount + serviceAmount`, and the
entries are not cleared. -/
theorem claim5_itemized_finalization (s : Session) (h : s.people ≠ [])
    (hb : |s.total - sumPeople s| ≤ 1/100) :
    (calculate s).1 =
      CalcResult.itemized
        (List.zip (s.people.map Prod.fst)
          (allocate_cents
            (s.people.map (fun p =>
              if 0 < s.total
              then p.2 + (p.2 / s.total) *
                     (s.total * (s.gst / 100) + s.total * (s.service / 100))
              else p.2))
            (s.total + s.total * (s.gst / 100) + s.total * (s.service / 100)))) ∧
    (calculate s).2 = s := by
  have h' : s.people.isEmpty = false := by
    simpa [List.isEmpty_iff] using h
  have hmap : (fun p : String × ℚ =>
        p.2 + (if 0 < s.total
               then (p.2 / s.total) *
                  (s.total * (s.gst / 100) + s.total * (s.service / 100))
               else 0))
      = fun p : String × ℚ =>
        if 0 < s.total
        then p.2 + (p.2 / s.total) *
               (s.total * (s.gst / 100) + s.total * (s.service / 100))
        else p.2 := by
    funext p
    by_cases hc : 0 < s.total <;> simp [hc]
  rw [calculate_balanced s h' (by rwa [abs_sub_comm]), hmap]
  exact ⟨rfl, rfl⟩

/-- Witness for C5: the spec's worked example (total 100, GST 9%, service
10%, Alice 60 and Bob 40) yields Alice 71.40 and Bob 47.60. -/
theorem claim5_witness :
    (calculate itemSession).1 =
      CalcResult.itemized [("Alice", (714 : ℚ)/10), ("Bob", (476 : ℚ)/10)] := by
  have h := claim5_itemized_finalization itemSession
    (by simp [itemSession, freshSession])
    (by norm_num [itemSession, freshSession, sumPeople])
  rw [h.1]
  norm_num [itemSession, freshSession, allocate_cents, pyRound, addOneToFirst,
    List.zip]

/-- Claim C6: the Scale resolution refuses (and leaves the session alone)
when the entry sum is not positive; otherwise it multiplies every entry by
`declaredTotal / sum(entries)`, after which the entry sum matches the
declared total within the 0.01 tolerance. -/
theorem claim6_scale_fix (s : Session) :
    (sumPeople s ≤ 0 → scale_fix s = (s, false)) ∧
    (0 < sumPeople s →
      (scale_fix s).2 = true ∧
      (scale_fix s).1.people =
        s.people.map (fun p => (p.1, p.2 * (s.total / sumPeople s))) ∧
      |s.total - sumPeople (scale_fix s).1| ≤ 1/100) := by
  constructor
  · intro h
    simp [scale_fix, h]
  · intro h
    have hne : ¬ sumPeople s ≤ 0 := not_le.mpr h
    have hz : sumPeople s ≠ 0 := ne_of_gt h
    have hcomp : (Prod.snd ∘ fun p : String × ℚ =>
        (p.1, p.2 * (s.total / sumPeople s))) =
        fun p : String × ℚ => p.2 * (s.total / sumPeople s) := rfl
    have h2 : (scale_fix s).1.people
        = s.people.map (fun p => (p.1, p.2 * (s.total / sumPeople s))) := by
      simp [scale_fix, hne]
    have hsum : sumPeople (scale_fix s).1 = s.total := by
      show (((scale_fix s).1.people).map Prod.snd).sum = s.total
      rw [h2, List.map_map, hcomp, sum_map_snd_mul]
      show sumPeople s * (s.total / sumPeople s) = s.total
      field_simp
    refine ⟨by simp [scale_fix, hne], by simp [scale_fix, hne], ?_⟩
    rw [hsum, sub_self, abs_zero]
    norm_num

/-- Witness for C6: total 100 over entries summing to 90 scales A 60 to
200/3 and B 30 to 100/3, whose sum is exactly the total. -/
theorem claim6_witness :
    (scale_fix scaleSession).1.people
      = [("A", (200 : ℚ)/3), ("B", (100 : ℚ)/3)] ∧
    |scaleSession.total - sumPeople (scale_fix scaleSession).1| ≤ 1/100 := by
  have h := (claim6_scale_fix scaleSession).2
    (by norm_num [scaleSession, freshSession, sumPeople])
  refine ⟨?_, h.2.2⟩
  rw [h.2.1]
  norm_num [scaleSession, freshSession, sumPeople]

/-- Claim C7: AdoptSum overwrites the declared total with the entry sum,
leaves the entries alone, and an immediate rebalance check passes — a
finalization right after cannot report a mismatch. -/
theorem claim7_adopt_sum (s : Session) :
    (total_to_sum s).total = sumPeople s ∧
    (total_to_sum s).people = s.people ∧
    close_enough (sumPeople (total_to_sum s)) (total_to_sum s).total (1/100)
      = true ∧
    (s.people ≠ [] →
      ∀ d, (calculate (total_to_sum s)).1 ≠ CalcResult.mismatch d) := by
  have hpeq : sumPeople (total_to_sum s) = sumPeople s := rfl
  refine ⟨rfl, rfl, ?_, ?_⟩
  · have he : sumPeople (total_to_sum s) = (total_to_sum s).total :=
      hpeq.trans rfl
    simp only [close_enough, he, sub_self, abs_zero]
    norm_num
  · intro hne d
    have h' : (total_to_sum s).people.isEmpty = false := by
      simpa [total_to_sum, List.isEmpty_iff] using hne
    have hb : |sumPeople (total_to_sum s) - (total_to_sum s).total| ≤ 1/100 := by
      rw [hpeq]
      simp only [total_to_sum, sub_self, abs_zero]
      norm_num
    rw [calculate_balanced (total_to_sum s) h' hb]
    simp

/-- Witness for C7: the spec's mismatch example — declared total 100 over a
single entry of 90; AdoptSum sets the total to 90 and finalizing afterwards
is not a mismatch. -/
theorem claim7_witness :
    (total_to_sum adoptSession).total = 90 ∧
    (calculate (total_to_sum adoptSession)).1 ≠ CalcResult.mismatch 0 := by
  have h := claim7_adopt_sum adoptSession
  refine ⟨?_, h.2.2.2 (by simp [adoptSession, freshSession]) 0⟩
  rw [h.1]
  norm_num [adoptSession, freshSession, sumPeople]

/-- Claim C8: for non-negative amounts, `/addamount` is additive (the new
amount is added to the stored subtotal, or the entry is created from 0),
while `/editamount` overwrites the stored amount and fails, without
touching the session, when the name is absent. -/
theorem claim8_upsert_replace (s : Session) (n : String) (a b : ℚ)
    (ha : 0 ≤ a) (hb : 0 ≤ b) :
    dictGet (addamount s n (some a)).1.people n
      = some ((dictGet s.people n).getD 0 + a) ∧
    ((dictGet s.people n).isSome = true →
      dictGet (editamount s n (some b)).1.people n = some b) ∧
    (dictGet s.people n = none → editamount s n (some b) = (s, false)) := by
  have ha' : ¬ a < 0 := not_lt.mpr ha
  have hb' : ¬ b < 0 := not_lt.mpr hb
  refine ⟨?_, ?_, ?_⟩
  · simp only [addamount, if_neg ha']
    exact dictGet_dictInsert s.people n ((dictGet s.people n).getD 0 + a)
  · intro hs
    have hnn : (dictGet s.people n).isNone = false := by
      cases hne : dictGet s.people n with
      | none => rw [hne] at hs; simp at hs
      | some v => simp [hne]
    simp only [editamount, if_neg hb', hnn, Bool.false_eq_true, if_false]
    exact dictGet_dictInsert s.people n b
  · intro hnone
    simp [editamount, hb', hnone]

/-- Witness for C8: upserting Alice 10 then Alice 5 stores 15; replacing
Alice with 5 afterwards stores 5. -/
theorem claim8_witness :
    dictGet (addamount aliceSession "Alice" (some 5)).1.people "Alice"
      = some 15 ∧
    dictGet (editamount aliceSession15 "Alice" (some 5)).1.people "Alice"
      = some 5 := by
  constructor
  · have h := (claim8_upsert_replace aliceSession "Alice" 5 5
      (by norm_num) (by norm_num)).1
    rw [h]
    norm_num [aliceSession, freshSession, dictGet]
  · exact (claim8_upsert_replace aliceSession15 "Alice" 5 5
      (by norm_num) (by norm_num)).2.1 (by simp [aliceSession15, freshSession, dictGet])

/-- Claim C9: with no entries and a positive participant count, finalization
reports `gstAmount = total*gst/100`, `serviceAmount = total*service/100`,
`grand = total + gstAmount + serviceAmount` and the single value
`perPerson = grand / participantCount`, with no cent-exact allocation. -/
theorem claim9_equal_split (s : Session) (h : s.people = [])
    (hn : 0 < s.num_people) :
    (calculate s).1 =
      CalcResult.equalSplit (s.total * (s.gst / 100)) (s.total * (s.service / 100))
        (s.total + s.total * (s.gst / 100) + s.total * (s.service / 100))
        ((s.total + s.total * (s.gst / 100) + s.total * (s.service / 100))
          / (s.num_people : ℚ)) := by
  have hn' : ¬ s.num_people ≤ 0 := not_le.mpr hn
  simp [calculate, h, hn']

/-- Witness for C9: the spec's example — total 50, GST 0, service 10%, 4
people — gives grand 55 and per-person 13.75. -/
theorem claim9_witness :
    (calculate eqSession).1 = CalcResult.equalSplit 0 5 55 ((1375 : ℚ)/100) := by
  have h := claim9_equal_split eqSession rfl (by norm_num [eqSession, freshSession])
  rw [h]
  norm_num [eqSession, freshSession]

/-- Claim C10: with no entries and a participant count that was never set
(a fresh session stores 0), finalization refuses, leaves the session as it
was, and never reaches the equal-split division — so division by zero is
unreachable at the finalize interface. -/
theorem claim10_no_division_when_unset (s : Session) (h : s.people = [])
    (hn : s.num_people ≤ 0) :
    calculate s = (CalcResult.noPeopleError, s) ∧
    (∀ g v gr p, (calculate s).1 ≠ CalcResult.equalSplit g v gr p) ∧
    freshSession.num_people = 0 ∧ freshSession.people = [] := by
  have hcalc : calculate s = (CalcResult.noPeopleError, s) := by
    simp [calculate, h, hn]
  refine ⟨hcalc, ?_, rfl, rfl⟩
  intro g v gr p
  rw [hcalc]
  simp

/-- Witness for C10: on the fresh session itself, finalization refuses. -/
theorem claim10_witness :
    calculate freshSession = (CalcResult.noPeopleError, freshSession) :=
  (claim10_no_division_when_unset freshSession rfl (by norm_num [freshSession])).1

end SplitBill
